import Mathlib

/-!
Shallow embedding of the service worker `sw.js` of the office-attendance
application, and proofs about its caching strategies.

The worker manipulates the browser Cache Storage: an ordered collection of
named caches, each cache an ordered mapping from request URLs to responses.
We model the storage as an association list of named caches, each cache an
association list from URL strings to responses.  Network fetches are modelled
by a parameter `net : Option Response`: `some r` means `fetch` resolved with
response `r` (possibly a non-2xx response), `none` means `fetch` rejected
(network failure).  Async strategies become pure state-passing functions on
the cache storage.
-/

set_option autoImplicit false

namespace SW

/-- A primitive JSON value, as produced by `JSON.stringify` on the flat
objects the worker builds. -/
inductive JVal where
  | jstr (s : String)
  | jbool (b : Bool)
  | jnum (n : Int)
deriving DecidableEq, Repr

/-- A response body: either opaque raw content (cached pages, network
payloads) or a stringified flat JSON object, kept in structured form so the
field list is observable. -/
inductive Body where
  | raw (s : String)
  | jsonObj (fields : List (String × JVal))
deriving DecidableEq, Repr

/-- The field names of a JSON-object body, in order; `[]` for raw content. -/
def Body.fieldNames : Body → List String
  | .raw _ => []
  | .jsonObj fields => fields.map Prod.fst

/-- A response.  `date` is the parsed value of the `date` header
(milliseconds since epoch), `none` when the header is absent. -/
structure Response where
  status : Nat
  statusText : String
  date : Option Int
  body : Body
deriving DecidableEq, Repr

/-- `response.ok`: status in the 2xx range, as the browser computes it. -/
def Response.ok (r : Response) : Bool :=
  200 ≤ r.status && r.status ≤ 299

/-- A GET/POST/... request.  `origin` and `pathname` are the components the
browser's `new URL(request.url)` yields for `request.url`. -/
structure Request where
  url : String
  method : String
  mode : String
  origin : String
  pathname : String
deriving DecidableEq, Repr

/-- `const STATIC_CACHE = 'attendance-static-v2.0.0'` (sw.js line 2). -/
def STATIC_CACHE : String := "attendance-static-v2.0.0"

/-- `const DYNAMIC_CACHE = 'attendance-dynamic-v2.0.0'` (sw.js line 3). -/
def DYNAMIC_CACHE : String := "attendance-dynamic-v2.0.0"

/-- `const CORE_FILES = [...]` (sw.js lines 5-11). -/
def CORE_FILES : List String :=
  ["./", "./index.html", "./manifest.json",
   "https://cdnjs.cloudflare.com/ajax/libs/jspdf/2.5.1/jspdf.umd.min.js",
   "https://cdnjs.cloudflare.com/ajax/libs/jspdf-autotable/3.5.31/jspdf.plugin.autotable.min.js"]

/-- One named cache: an ordered map from request URL to stored response. -/
abbrev Cache := List (String × Response)

/-- `cache.match(url)`: the stored response for `url`, if any. -/
def Cache.matchKey : Cache → String → Option Response
  | [], _ => none
  | (k, r) :: rest, url => if k = url then some r else Cache.matchKey rest url

/-- `cache.put(url, r)`: overwrite the entry for `url`, appending if absent. -/
def Cache.putEntry : Cache → String → Response → Cache
  | [], url, r => [(url, r)]
  | (k, r0) :: rest, url, r =>
      if k = url then (url, r) :: rest else (k, r0) :: Cache.putEntry rest url r

/-- `cache.delete(url)`: remove the entry (entries) stored under `url`. -/
def Cache.deleteEntry : Cache → String → Cache
  | [], _ => []
  | (k, r) :: rest, url =>
      if k = url then Cache.deleteEntry rest url else (k, r) :: Cache.deleteEntry rest url

/-- The whole Cache Storage: named caches in creation order. -/
abbrev CacheStorage := List (String × Cache)

/-- The cache stored under `name`, if it exists. -/
def CacheStorage.getCache : CacheStorage → String → Option Cache
  | [], _ => none
  | (n, c) :: rest, name => if n = name then some c else CacheStorage.getCache rest name

/-- `caches.open(name)`: create an empty cache under `name` if none exists. -/
def CacheStorage.openCache (cs : CacheStorage) (name : String) : CacheStorage :=
  match cs.getCache name with
  | some _ => cs
  | none => cs ++ [(name, [])]

/-- Replace the contents of the cache stored under `name`. -/
def CacheStorage.setCache : CacheStorage → String → Cache → CacheStorage
  | [], name, c => [(name, c)]
  | (n, c0) :: rest, name, c =>
      if n = name then (name, c) :: rest else (n, c0) :: CacheStorage.setCache rest name c

/-- `caches.open(name)` followed by `cache.put(url, r)`. -/
def CacheStorage.putIn (cs : CacheStorage) (name url : String) (r : Response) : CacheStorage :=
  let cs1 := cs.openCache name
  cs1.setCache name (((cs1.getCache name).getD []).putEntry url r)

/-- `caches.match(url)`: search every cache in order for `url`. -/
def CacheStorage.matchAll : CacheStorage → String → Option Response
  | [], _ => none
  | (_, c) :: rest, url =>
      match c.matchKey url with
      | some r => some r
      | none => CacheStorage.matchAll rest url

/-- `caches.delete(name)`: remove the cache (caches) named `name`. -/
def CacheStorage.deleteCache : CacheStorage → String → CacheStorage
  | [], _ => []
  | (n, c) :: rest, name =>
      if n = name then CacheStorage.deleteCache rest name
      else (n, c) :: CacheStorage.deleteCache rest name

/-- Shallow model of `new Date(now).toISOString()`: the claims depend only on
the presence of the timestamp field, not on the textual date format. -/
def toISOString (now : Int) : String := toString now

/-- The synthesized offline error response the strategies build on total
failure (sw.js lines 114-125 and 157-168): status 503, JSON body with the
three fields error / offline / timestamp. -/
def errorResponse (msg : String) (now : Int) : Response :=
  { status := 503
    statusText := "Service Unavailable"
    date := none
    body := .jsonObj
      [("error", .jstr msg), ("offline", .jbool true),
       ("timestamp", .jstr (toISOString now))] }

/-- `cacheFirst` (sw.js lines 87-127): return the stored copy if any cache
holds one; otherwise fetch, store into the static cache when the response is
ok, and return the network response; on fetch failure return the cached
`./index.html` for navigations when available, else the synthesized 503
error response. -/
def cacheFirst (request : Request) (net : Option Response) (now : Int)
    (cs : CacheStorage) : Response × CacheStorage :=
  match cs.matchAll request.url with
  | some cachedResponse => (cachedResponse, cs)
  | none =>
    match net with
    | some networkResponse =>
      if networkResponse.ok then
        (networkResponse, cs.putIn STATIC_CACHE request.url networkResponse)
      else
        (networkResponse, cs)
    | none =>
      if request.mode = "navigate" then
        match cs.matchAll "./index.html" with
        | some fallbackResponse => (fallbackResponse, cs)
        | none =>
          (errorResponse "Network error and no cached version available" now, cs)
      else
        (errorResponse "Network error and no cached version available" now, cs)

/-- `networkFirst` (sw.js lines 130-170): fetch, store into the dynamic cache
when ok, and return the network response; on fetch failure fall back to any
stored copy, then to the cached `./index.html` for navigations, then to the
synthesized 503 error response. -/
def networkFirst (request : Request) (net : Option Response) (now : Int)
    (cs : CacheStorage) : Response × CacheStorage :=
  match net with
  | some networkResponse =>
    if networkResponse.ok then
      (networkResponse, cs.putIn DYNAMIC_CACHE request.url networkResponse)
    else
      (networkResponse, cs)
  | none =>
    match cs.matchAll request.url with
    | some cachedResponse => (cachedResponse, cs)
    | none =>
      if request.mode = "navigate" then
        match cs.matchAll "./index.html" with
        | some fallbackResponse => (fallbackResponse, cs)
        | none => (errorResponse "Offline - No network connection" now, cs)
      else
        (errorResponse "Offline - No network connection" now, cs)

/-- `staleWhileRevalidate` (sw.js lines 173-189): open the dynamic cache,
look the request up in that cache only, start a background fetch that stores
ok responses into the dynamic cache and resolves to `null` on failure, and
return `cachedResponse || networkResponsePromise`.  The first component is
the response the strategy resolves with (`none` models a `null` result). -/
def staleWhileRevalidate (request : Request) (net : Option Response)
    (cs : CacheStorage) : Option Response × CacheStorage :=
  let cs1 := cs.openCache DYNAMIC_CACHE
  let cachedResponse := ((cs1.getCache DYNAMIC_CACHE).getD []).matchKey request.url
  let cs2 :=
    match net with
    | some networkResponse =>
      if networkResponse.ok then cs1.putIn DYNAMIC_CACHE request.url networkResponse
      else cs1
    | none => cs1
  match cachedResponse with
  | some c => (some c, cs2)
  | none => (net, cs2)

/-- Outcome of the fetch dispatcher: either the handler returned without
calling `event.respondWith` (the request passes through to the network
untouched), or it responded with the value a strategy resolved to. -/
inductive DispatchOutcome where
  | passthrough
  | responded (r : Option Response)
deriving DecidableEq, Repr

/-- The fetch listener (sw.js lines 55-84): non-GET requests pass through;
core files go to cache-first, cdnjs origins to stale-while-revalidate,
same-origin requests to network-first, everything else to cache-first. -/
def handleFetch (selfOrigin : String) (request : Request) (net : Option Response)
    (now : Int) (cs : CacheStorage) : DispatchOutcome × CacheStorage :=
  if request.method ≠ "GET" then
    (.passthrough, cs)
  else if CORE_FILES.contains request.url || CORE_FILES.contains request.pathname then
    let (r, cs1) := cacheFirst request net now cs
    (.responded (some r), cs1)
  else if request.origin = "https://cdnjs.cloudflare.com" then
    let (r, cs1) := staleWhileRevalidate request net cs
    (.responded r, cs1)
  else if request.origin = selfOrigin then
    let (r, cs1) := networkFirst request net now cs
    (.responded (some r), cs1)
  else
    let (r, cs1) := cacheFirst request net now cs
    (.responded (some r), cs1)

/-- The activate listener's cleanup (sw.js lines 39-48): for every existing
cache name, delete the cache unless it is the current static or dynamic
cache. -/
def activateCleanup (cs : CacheStorage) : CacheStorage :=
  (cs.map Prod.fst).foldl
    (fun acc cacheName =>
      if cacheName ≠ STATIC_CACHE ∧ cacheName ≠ DYNAMIC_CACHE then
        acc.deleteCache cacheName
      else acc)
    cs

/-- `cacheAttendanceData` (sw.js lines 305-317): store the page's data under
the fixed key in the dynamic cache as a fresh 200 JSON response. -/
def cacheAttendanceData (data : Body) (cs : CacheStorage) : CacheStorage :=
  cs.putIn DYNAMIC_CACHE "attendance-data-backup"
    { status := 200, statusText := "", date := none, body := data }

/-- `30 * 24 * 60 * 60 * 1000` (sw.js line 357). -/
def thirtyDaysMs : Int := 30 * 24 * 60 * 60 * 1000

/-- The deletion test of `performCleanup` (sw.js lines 361-369): an entry is
deleted when it carries a `date` header whose time is before
`Date.now() - thirtyDaysMs`; entries without the header are skipped. -/
def shouldDelete (now : Int) (r : Response) : Bool :=
  match r.date with
  | some t => t < now - thirtyDaysMs
  | none => false

/-- The `for (const request of requests)` loop of `performCleanup` (sw.js
lines 359-370): walk the snapshot of keys, look each one up in the current
cache, and delete it when the deletion test fires. -/
def cleanupLoop (now : Int) : List String → Cache → Cache
  | [], c => c
  | url :: rest, c =>
    match c.matchKey url with
    | some r =>
      if shouldDelete now r then cleanupLoop now rest (c.deleteEntry url)
      else cleanupLoop now rest c
    | none => cleanupLoop now rest c

/-- `performCleanup` (sw.js lines 351-376): open the dynamic cache and run
the deletion loop over its keys. -/
def performCleanup (now : Int) (cs : CacheStorage) : CacheStorage :=
  let cs1 := cs.openCache DYNAMIC_CACHE
  let c := (cs1.getCache DYNAMIC_CACHE).getD []
  cs1.setCache DYNAMIC_CACHE (cleanupLoop now (c.map Prod.fst) c)

end SW

namespace SW

/-! ### Helper lemmas about the cache-storage model -/

theorem matchKey_eq_none_of_not_mem {c : Cache} {url : String}
    (h : url ∉ c.map Prod.fst) : c.matchKey url = none := by
  induction c with
  | nil => rfl
  | cons e rest ih =>
    obtain ⟨k, r⟩ := e
    simp only [List.map_cons, List.mem_cons, not_or] at h
    simp [Cache.matchKey, Ne.symm h.1, ih h.2]

theorem deleteEntry_of_not_mem {c : Cache} {url : String}
    (h : url ∉ c.map Prod.fst) : c.deleteEntry url = c := by
  induction c with
  | nil => rfl
  | cons e rest ih =>
    obtain ⟨k, r⟩ := e
    simp only [List.map_cons, List.mem_cons, not_or] at h
    simp [Cache.deleteEntry, Ne.symm h.1, ih h.2]

theorem matchKey_putEntry_self (c : Cache) (url : String) (r : Response) :
    (c.putEntry url r).matchKey url = some r := by
  induction c with
  | nil => simp [Cache.putEntry, Cache.matchKey]
  | cons e rest ih =>
    obtain ⟨k, r0⟩ := e
    by_cases hk : k = url
    · simp [Cache.putEntry, hk, Cache.matchKey]
    · simp [Cache.putEntry, hk, Cache.matchKey, ih]

theorem getCache_setCache_self (cs : CacheStorage) (name : String) (c : Cache) :
    (cs.setCache name c).getCache name = some c := by
  induction cs with
  | nil => simp [CacheStorage.setCache, CacheStorage.getCache]
  | cons e rest ih =>
    obtain ⟨n, c0⟩ := e
    by_cases hn : n = name
    · simp [CacheStorage.setCache, hn, CacheStorage.getCache]
    · simp [CacheStorage.setCache, hn, CacheStorage.getCache, ih]

theorem getCache_setCache_ne (cs : CacheStorage) {name name' : String} (c : Cache)
    (h : name' ≠ name) : (cs.setCache name c).getCache name' = cs.getCache name' := by
  induction cs with
  | nil => simp [CacheStorage.setCache, CacheStorage.getCache, Ne.symm h]
  | cons e rest ih =>
    obtain ⟨n, c0⟩ := e
    by_cases hn : n = name
    · subst hn
      simp [CacheStorage.setCache, CacheStorage.getCache, Ne.symm h, h]
    · by_cases hn' : n = name'
      · simp [CacheStorage.setCache, hn, CacheStorage.getCache, hn', h]
      · simp [CacheStorage.setCache, hn, CacheStorage.getCache, hn', ih]

theorem getCache_append_single_ne (cs : CacheStorage) {name name' : String} (c : Cache)
    (h : name' ≠ name) : (cs ++ [(name, c)]).getCache name' = cs.getCache name' := by
  induction cs with
  | nil => simp [CacheStorage.getCache, Ne.symm h]
  | cons e rest ih =>
    obtain ⟨n, c0⟩ := e
    by_cases hn : n = name'
    · simp [CacheStorage.getCache, hn]
    · simp [CacheStorage.getCache, hn, ih]

theorem getCache_openCache_ne (cs : CacheStorage) {name name' : String}
    (h : name' ≠ name) : (cs.openCache name).getCache name' = cs.getCache name' := by
  unfold CacheStorage.openCache
  cases hc : cs.getCache name with
  | some c => rfl
  | none => exact getCache_append_single_ne cs [] h

theorem getCache_append_single_self (cs : CacheStorage) {name : String} (c : Cache)
    (h : cs.getCache name = none) : (cs ++ [(name, c)]).getCache name = some c := by
  induction cs with
  | nil => simp [CacheStorage.getCache]
  | cons e rest ih =>
    obtain ⟨n, c0⟩ := e
    by_cases hn : n = name
    · simp [CacheStorage.getCache, hn] at h
    · simp [CacheStorage.getCache, hn] at h ⊢
      exact ih h

theorem getCache_openCache_getD (cs : CacheStorage) (name : String) :
    ((cs.openCache name).getCache name).getD [] = (cs.getCache name).getD [] := by
  unfold CacheStorage.openCache
  cases hc : cs.getCache name with
  | some c => simp [hc]
  | none => simp [getCache_append_single_self cs [] hc]

theorem getCache_putIn_ne (cs : CacheStorage) {name name' : String} (url : String)
    (r : Response) (h : name' ≠ name) :
    (cs.putIn name url r).getCache name' = cs.getCache name' := by
  unfold CacheStorage.putIn
  rw [getCache_setCache_ne _ _ h, getCache_openCache_ne _ h]

theorem getCache_putIn_self (cs : CacheStorage) (name url : String) (r : Response) :
    (cs.putIn name url r).getCache name =
      some (((cs.getCache name).getD []).putEntry url r) := by
  unfold CacheStorage.putIn
  rw [getCache_setCache_self, getCache_openCache_getD]

theorem matchAll_none_getCache {cs : CacheStorage} {url : String}
    (h : cs.matchAll url = none) (name : String) :
    ((cs.getCache name).getD []).matchKey url = none := by
  induction cs with
  | nil => simp [CacheStorage.getCache, Cache.matchKey]
  | cons e rest ih =>
    obtain ⟨n, c⟩ := e
    unfold CacheStorage.matchAll at h
    cases hm : c.matchKey url with
    | some r => rw [hm] at h; exact absurd h (by simp)
    | none =>
      rw [hm] at h
      by_cases hn : n = name
      · simpa [CacheStorage.getCache, hn] using hm
      · simpa [CacheStorage.getCache, hn] using ih h

end SW

namespace SW

/-! ### Lemmas about the cleanup loop -/

theorem cleanupLoop_cons_not_mem (now : Int) {keys : List String} {u : String}
    (r : Response) (c : Cache) (h : u ∉ keys) :
    cleanupLoop now keys ((u, r) :: c) = (u, r) :: cleanupLoop now keys c := by
  induction keys generalizing c with
  | nil => rfl
  | cons k rest ih =>
    simp only [List.mem_cons, not_or] at h
    have hm1 : Cache.matchKey ((u, r) :: c) k = c.matchKey k := by
      simp [Cache.matchKey, h.1]
    have hdel : Cache.deleteEntry ((u, r) :: c) k = (u, r) :: c.deleteEntry k := by
      simp [Cache.deleteEntry, h.1]
    cases hm : c.matchKey k with
    | some r' =>
      by_cases hd : shouldDelete now r'
      · simp only [cleanupLoop, hm1, hm, if_pos hd, hdel]
        exact ih _ h.2
      · simp only [cleanupLoop, hm1, hm, if_neg hd]
        exact ih _ h.2
    | none =>
      simp only [cleanupLoop, hm1, hm]
      exact ih _ h.2

theorem cleanupLoop_keys_eq_filter (now : Int) (c : Cache)
    (h : (c.map Prod.fst).Nodup) :
    cleanupLoop now (c.map Prod.fst) c = c.filter (fun e => !shouldDelete now e.2) := by
  induction c with
  | nil => rfl
  | cons e rest ih =>
    obtain ⟨u, r⟩ := e
    simp only [List.map_cons, List.nodup_cons] at h
    obtain ⟨hu, hrest⟩ := h
    have hmk : Cache.matchKey ((u, r) :: rest) u = some r := by
      simp [Cache.matchKey]
    by_cases hd : shouldDelete now r
    · have hdel : Cache.deleteEntry ((u, r) :: rest) u = rest := by
        simp [Cache.deleteEntry, deleteEntry_of_not_mem hu]
      simp only [List.map_cons, cleanupLoop, hmk, if_pos hd, hdel, ih hrest]
      simp [List.filter_cons, hd]
    · simp only [List.map_cons, cleanupLoop, hmk, if_neg hd]
      rw [cleanupLoop_cons_not_mem now r rest hu, ih hrest]
      simp [List.filter_cons, hd]

theorem performCleanup_getCache_dynamic (now : Int) (cs : CacheStorage)
    (h : ((((cs.getCache DYNAMIC_CACHE).getD []).map Prod.fst)).Nodup) :
    (performCleanup now cs).getCache DYNAMIC_CACHE =
      some (((cs.getCache DYNAMIC_CACHE).getD []).filter
        (fun e => !shouldDelete now e.2)) := by
  unfold performCleanup
  rw [getCache_setCache_self, getCache_openCache_getD,
    cleanupLoop_keys_eq_filter now _ h]

theorem performCleanup_getCache_ne (now : Int) (cs : CacheStorage) {name : String}
    (h : name ≠ DYNAMIC_CACHE) :
    (performCleanup now cs).getCache name = cs.getCache name := by
  unfold performCleanup
  rw [getCache_setCache_ne _ _ h, getCache_openCache_ne _ h]

/-! ### Lemmas about the activate cleanup -/

/-- Whether a named cache survives the activate cleanup: it is one of the
two current caches. -/
def isCurrent (e : String × Cache) : Bool :=
  e.1 == STATIC_CACHE || e.1 == DYNAMIC_CACHE

theorem deleteCache_filter_isCurrent (cs : CacheStorage) {name : String}
    (h : name ≠ STATIC_CACHE ∧ name ≠ DYNAMIC_CACHE) :
    (cs.deleteCache name).filter isCurrent = cs.filter isCurrent := by
  induction cs with
  | nil => rfl
  | cons e rest ih =>
    obtain ⟨n, c⟩ := e
    by_cases hn : n = name
    · subst hn
      have hcur : isCurrent (n, c) = false := by
        simp [isCurrent, h.1, h.2]
      simp [CacheStorage.deleteCache, List.filter_cons, hcur, ih]
    · simp only [CacheStorage.deleteCache, if_neg hn]
      rw [List.filter_cons, List.filter_cons, ih]

theorem mem_deleteCache {cs : CacheStorage} {e : String × Cache} {name : String}
    (h : e ∈ cs.deleteCache name) : e ∈ cs := by
  induction cs with
  | nil => simp [CacheStorage.deleteCache] at h
  | cons e0 rest ih =>
    obtain ⟨n, c⟩ := e0
    by_cases hn : n = name
    · simp only [CacheStorage.deleteCache, if_pos hn] at h
      exact List.mem_cons_of_mem _ (ih h)
    · simp only [CacheStorage.deleteCache, if_neg hn, List.mem_cons] at h
      rcases h with h | h
      · exact h ▸ List.mem_cons_self _ _
      · exact List.mem_cons_of_mem _ (ih h)

theorem name_not_mem_deleteCache {cs : CacheStorage} {e : String × Cache} {name : String}
    (h : e ∈ cs.deleteCache name) : e.1 ≠ name := by
  induction cs with
  | nil => simp [CacheStorage.deleteCache] at h
  | cons e0 rest ih =>
    obtain ⟨n, c⟩ := e0
    by_cases hn : n = name
    · simp only [CacheStorage.deleteCache, if_pos hn] at h
      exact ih h
    · simp only [CacheStorage.deleteCache, if_neg hn, List.mem_cons] at h
      rcases h with h | h
      · simpa [h] using hn
      · exact ih h

theorem activateFold_eq_filter (names : List String) (acc : CacheStorage)
    (hinv : ∀ e ∈ acc, isCurrent e = false → e.1 ∈ names) :
    names.foldl
      (fun acc cacheName =>
        if cacheName ≠ STATIC_CACHE ∧ cacheName ≠ DYNAMIC_CACHE then
          acc.deleteCache cacheName
        else acc)
      acc = acc.filter isCurrent := by
  induction names generalizing acc with
  | nil =>
    simp only [List.foldl_nil]
    have hall : ∀ e ∈ acc, isCurrent e = true := by
      intro e he
      by_contra hfalse
      exact absurd (hinv e he (Bool.eq_false_iff.mpr hfalse)) (List.not_mem_nil _)
    exact (List.filter_eq_self.mpr hall).symm
  | cons n ns ih =>
    simp only [List.foldl_cons]
    by_cases hn : n ≠ STATIC_CACHE ∧ n ≠ DYNAMIC_CACHE
    · rw [if_pos hn, ih (acc.deleteCache n) ?_, deleteCache_filter_isCurrent acc hn]
      intro e he hfalse
      have h1 := hinv e (mem_deleteCache he) hfalse
      have h2 := name_not_mem_deleteCache he
      simpa [h2] using h1
    · rw [if_neg hn]
      refine ih acc ?_
      intro e he hfalse
      have h1 := hinv e he hfalse
      rcases List.mem_cons.mp h1 with h | h
      · exfalso
        rw [not_and_or, not_not, not_not] at hn
        rcases hn with hn | hn <;> simp [isCurrent, h, hn] at hfalse
      · exact h

theorem activateCleanup_eq_filter (cs : CacheStorage) :
    activateCleanup cs = cs.filter isCurrent := by
  unfold activateCleanup
  refine activateFold_eq_filter _ cs ?_
  intro e he _
  exact List.mem_map_of_mem Prod.fst he

theorem getCache_filter_isCurrent (cs : CacheStorage) {name : String}
    (h : isCurrent (name, ([] : Cache)) = true) :
    CacheStorage.getCache (cs.filter isCurrent) name = cs.getCache name := by
  induction cs with
  | nil => rfl
  | cons e rest ih =>
    obtain ⟨n, c⟩ := e
    by_cases hn : n = name
    · subst hn
      have hcur : isCurrent (n, c) = true := by
        simpa [isCurrent] using h
      simp [List.filter_cons, hcur, CacheStorage.getCache]
    · cases hcur : isCurrent (n, c) with
      | true => simp [List.filter_cons, hcur, CacheStorage.getCache, hn, ih]
      | false => simp [List.filter_cons, hcur, CacheStorage.getCache, hn, ih]

end SW

namespace SW

/-! ### A helper describing the cache state a strategy run leaves behind -/

theorem swr_snd (request : Request) (net : Option Response) (cs : CacheStorage) :
    (staleWhileRevalidate request net cs).2 =
      match net with
      | some nr =>
        if nr.ok then (cs.openCache DYNAMIC_CACHE).putIn DYNAMIC_CACHE request.url nr
        else cs.openCache DYNAMIC_CACHE
      | none => cs.openCache DYNAMIC_CACHE := by
  simp only [staleWhileRevalidate]
  cases hm : (((cs.openCache DYNAMIC_CACHE).getCache DYNAMIC_CACHE).getD []).matchKey
      request.url <;>
    cases net <;> simp

/-! ### Concrete fixtures used by witnesses and counterexamples -/

/-- A GET request for a non-core cdnjs script, as dispatched to
stale-while-revalidate. -/
def reqCdn : Request :=
  { url := "https://cdnjs.cloudflare.com/x.js", method := "GET", mode := "no-cors",
    origin := "https://cdnjs.cloudflare.com", pathname := "/x.js" }

/-- A stored 200 response. -/
def sampleResponse : Response :=
  { status := 200, statusText := "OK", date := some 5, body := .raw "hello" }

/-- A fresh 200 network response. -/
def freshResponse : Response :=
  { status := 200, statusText := "OK", date := some 9, body := .raw "fresh" }

/-- A storage whose dynamic cache holds `reqCdn.url`. -/
def dynCs : CacheStorage := [(DYNAMIC_CACHE, [(reqCdn.url, sampleResponse)])]

/-- A storage whose static cache (and only it) holds `reqCdn.url`. -/
def staticOnlyCs : CacheStorage := [(STATIC_CACHE, [(reqCdn.url, sampleResponse)])]

/-! ### C1 -/

/-- C1 counterexample: the claim says every strategy, stale-while-revalidate
included, synthesizes a 503 JSON error response when both the network fetch
and the cache lookup fail.  On an empty cache storage with the network down,
`staleWhileRevalidate` instead resolves to `null` (modelled `none`): it
returns no response at all, in particular no 503 JSON error response. -/
theorem C1_counterexample : (staleWhileRevalidate reqCdn none []).1 = none := rfl

/-- C1 (amended): when the network fetch fails and every cache lookup
misses, cache-first and network-first return a synthesized JSON error
response with status 503 whose body has exactly the fields
error, offline, timestamp; stale-while-revalidate instead resolves to no
response (`null`). -/
theorem C1_total_failure_payload (request : Request) (now : Int) (cs : CacheStorage)
    (hmiss : cs.matchAll request.url = none)
    (hfb : cs.matchAll "./index.html" = none) :
    ((cacheFirst request none now cs).1.status = 503 ∧
      ((cacheFirst request none now cs).1.body).fieldNames =
        ["error", "offline", "timestamp"]) ∧
    ((networkFirst request none now cs).1.status = 503 ∧
      ((networkFirst request none now cs).1.body).fieldNames =
        ["error", "offline", "timestamp"]) ∧
    (staleWhileRevalidate request none cs).1 = none := by
  refine ⟨?_, ?_, ?_⟩
  · by_cases hnav : request.mode = "navigate"
    · simp [cacheFirst, hmiss, hnav, hfb, errorResponse, Body.fieldNames]
    · simp [cacheFirst, hmiss, hnav, errorResponse, Body.fieldNames]
  · by_cases hnav : request.mode = "navigate"
    · simp [networkFirst, hmiss, hnav, hfb, errorResponse, Body.fieldNames]
    · simp [networkFirst, hmiss, hnav, errorResponse, Body.fieldNames]
  · have hdyn := matchAll_none_getCache hmiss DYNAMIC_CACHE
    simp [staleWhileRevalidate, getCache_openCache_getD, hdyn]

/-- C1 witness: the amended statement at a concrete offline input. -/
theorem C1_total_failure_payload_witness :
    ((cacheFirst reqCdn none 0 []).1.status = 503 ∧
      ((cacheFirst reqCdn none 0 []).1.body).fieldNames =
        ["error", "offline", "timestamp"]) ∧
    ((networkFirst reqCdn none 0 []).1.status = 503 ∧
      ((networkFirst reqCdn none 0 []).1.body).fieldNames =
        ["error", "offline", "timestamp"]) ∧
    (staleWhileRevalidate reqCdn none []).1 = none :=
  C1_total_failure_payload reqCdn 0 [] rfl rfl

/-! ### C2 -/

/-- C2: stale-while-revalidate returns the copy stored in the dynamic store
immediately whenever one exists, and its background re-fetch overwrites the
stored copy with the network response whenever that fetch yields a
successful response. -/
theorem C2_swr_stale_and_revalidate
    (request : Request) (net : Option Response) (cs : CacheStorage) :
    (∀ c, ((cs.getCache DYNAMIC_CACHE).getD []).matchKey request.url = some c →
      (staleWhileRevalidate request net cs).1 = some c) ∧
    (∀ nr, net = some nr → nr.ok = true →
      (((staleWhileRevalidate request net cs).2.getCache DYNAMIC_CACHE).getD
        []).matchKey request.url = some nr) := by
  constructor
  · intro c hc
    simp [staleWhileRevalidate, getCache_openCache_getD, hc]
  · intro nr hnr hok
    subst hnr
    rw [swr_snd]
    simp only [hok, if_true]
    rw [getCache_putIn_self]
    simp [matchKey_putEntry_self]

/-- C2 witness: with a stale copy in the dynamic store and a fresh ok
network response, the strategy returns the stale copy and the store
afterwards holds the fresh one. -/
theorem C2_swr_stale_and_revalidate_witness :
    (staleWhileRevalidate reqCdn (some freshResponse) dynCs).1 = some sampleResponse ∧
    ((((staleWhileRevalidate reqCdn (some freshResponse) dynCs).2).getCache
      DYNAMIC_CACHE).getD []).matchKey reqCdn.url = some freshResponse :=
  ⟨(C2_swr_stale_and_revalidate reqCdn (some freshResponse) dynCs).1 sampleResponse rfl,
   (C2_swr_stale_and_revalidate reqCdn (some freshResponse) dynCs).2 freshResponse rfl rfl⟩

end SW

namespace SW

/-! ### C3 -/

/-- A dynamic store for the cleanup claims: one entry strictly older than
30 days, one exactly 30 days old, one recent, one without a date header. -/
def cleanupCs : CacheStorage :=
  [(DYNAMIC_CACHE,
    [("old", { sampleResponse with date := some (100 - thirtyDaysMs - 1) }),
     ("edge", { sampleResponse with date := some (100 - thirtyDaysMs) }),
     ("recent", { sampleResponse with date := some 100 }),
     ("nodate", { sampleResponse with date := none })])]

/-- C3: cleanup leaves the dynamic store holding exactly the entries whose
stored timestamp is at least 30 days recent (or which carry no timestamp):
every entry with a timestamp older than `now - 30 days` is deleted, every
other entry is kept unchanged. -/
theorem C3_cleanup_filters_old (now : Int) (cs : CacheStorage)
    (h : (((cs.getCache DYNAMIC_CACHE).getD []).map Prod.fst).Nodup) :
    (performCleanup now cs).getCache DYNAMIC_CACHE =
      some (((cs.getCache DYNAMIC_CACHE).getD []).filter
        (fun e =>
          match e.2.date with
          | some t => decide (now - thirtyDaysMs ≤ t)
          | none => true)) := by
  rw [performCleanup_getCache_dynamic now cs h]
  congr 1
  apply List.filter_congr
  intro e _
  cases hdate : e.2.date with
  | some t =>
    simp only [shouldDelete, hdate]
    by_cases hlt : t < now - thirtyDaysMs
    · have hle : ¬(now - thirtyDaysMs ≤ t) := by omega
      simp [hlt, hle]
    · have hle : now - thirtyDaysMs ≤ t := by omega
      simp [hlt, hle]
  | none => simp [shouldDelete, hdate]

/-- C3 witness: on a store with a too-old, a boundary, a recent and a
dateless entry, cleanup deletes exactly the too-old one. -/
theorem C3_cleanup_filters_old_witness :
    (performCleanup 100 cleanupCs).getCache DYNAMIC_CACHE =
      some (((cleanupCs.getCache DYNAMIC_CACHE).getD []).filter
        (fun e =>
          match e.2.date with
          | some t => decide ((100 : Int) - thirtyDaysMs ≤ t)
          | none => true)) :=
  C3_cleanup_filters_old 100 cleanupCs (by decide)

/-! ### C4 -/

/-- C4: the cache-first strategy returns the stored copy if any cache holds
one (leaving the storage unchanged); otherwise it returns the network
response, storing a copy in the static store exactly when the response is
successful; when the fetch fails it returns the cached fallback page for
navigation requests that have one, and the synthesized 503 error payload
otherwise. -/
theorem C4_cacheFirst_spec (request : Request) (net : Option Response)
    (now : Int) (cs : CacheStorage) :
    (∀ r, cs.matchAll request.url = some r →
      cacheFirst request net now cs = (r, cs)) ∧
    (∀ nr, cs.matchAll request.url = none → net = some nr → nr.ok = true →
      (cacheFirst request net now cs).1 = nr ∧
      ((((cacheFirst request net now cs).2.getCache STATIC_CACHE).getD
        []).matchKey request.url = some nr)) ∧
    (∀ nr, cs.matchAll request.url = none → net = some nr → nr.ok = false →
      cacheFirst request net now cs = (nr, cs)) ∧
    (∀ fb, cs.matchAll request.url = none → net = none →
      request.mode = "navigate" → cs.matchAll "./index.html" = some fb →
      cacheFirst request net now cs = (fb, cs)) ∧
    (cs.matchAll request.url = none → net = none →
      (request.mode ≠ "navigate" ∨ cs.matchAll "./index.html" = none) →
      cacheFirst request net now cs =
        (errorResponse "Network error and no cached version available" now, cs)) := by
  refine ⟨?_, ?_, ?_, ?_, ?_⟩
  · intro r hr
    simp [cacheFirst, hr]
  · intro nr hmiss hnet hok
    subst hnet
    constructor
    · simp [cacheFirst, hmiss, hok]
    · simp only [cacheFirst, hmiss, hok, if_true]
      rw [getCache_putIn_self]
      simp [matchKey_putEntry_self]
  · intro nr hmiss hnet hok
    subst hnet
    simp [cacheFirst, hmiss, hok]
  · intro fb hmiss hnet hnav hfb
    subst hnet
    simp [cacheFirst, hmiss, hnav, hfb]
  · intro hmiss hnet hcase
    subst hnet
    rcases hcase with hnav | hfb
    · simp [cacheFirst, hmiss, hnav]
    · by_cases hnav : request.mode = "navigate"
      · simp [cacheFirst, hmiss, hnav, hfb]
      · simp [cacheFirst, hmiss, hnav]

/-- A non-2xx network response. -/
def notFoundResponse : Response :=
  { status := 404, statusText := "Not Found", date := none, body := .raw "missing" }

/-- A navigation request to the app shell. -/
def reqNav : Request :=
  { url := "https://example.com/page", method := "GET", mode := "navigate",
    origin := "https://example.com", pathname := "/page" }

/-- A storage holding only the fallback page `./index.html`. -/
def fallbackCs : CacheStorage := [(STATIC_CACHE, [("./index.html", sampleResponse)])]

/-- C4 witness: every branch of the cache-first contract at concrete
inputs: a cache hit, a successful fetch on a miss, a failed (non-ok) fetch
on a miss, an offline navigation with a cached fallback, and an offline
non-navigation with nothing cached. -/
theorem C4_cacheFirst_spec_witness :
    cacheFirst reqCdn (some freshResponse) 0 staticOnlyCs = (sampleResponse, staticOnlyCs) ∧
    ((cacheFirst reqCdn (some freshResponse) 0 []).1 = freshResponse ∧
      ((((cacheFirst reqCdn (some freshResponse) 0 []).2.getCache STATIC_CACHE).getD
        []).matchKey reqCdn.url = some freshResponse)) ∧
    cacheFirst reqCdn (some notFoundResponse) 0 [] = (notFoundResponse, []) ∧
    cacheFirst reqNav none 0 fallbackCs = (sampleResponse, fallbackCs) ∧
    cacheFirst reqCdn none 0 [] =
      (errorResponse "Network error and no cached version available" 0, []) :=
  ⟨(C4_cacheFirst_spec reqCdn (some freshResponse) 0 staticOnlyCs).1 sampleResponse rfl,
   (C4_cacheFirst_spec reqCdn (some freshResponse) 0 []).2.1 freshResponse rfl rfl (by decide),
   (C4_cacheFirst_spec reqCdn (some notFoundResponse) 0 []).2.2.1 notFoundResponse rfl rfl
     (by decide),
   (C4_cacheFirst_spec reqNav none 0 fallbackCs).2.2.2.1 sampleResponse rfl rfl rfl rfl,
   (C4_cacheFirst_spec reqCdn none 0 []).2.2.2.2 rfl rfl (Or.inl (by decide))⟩

/-! ### C5 -/

/-- C5: the network-first strategy returns the network response whenever the
fetch resolves, storing a copy in the dynamic store exactly when the
response is successful; when the fetch fails it falls back to the stored
copy, then to the cached fallback page for navigation requests, then to the
synthesized 503 error payload. -/
theorem C5_networkFirst_spec (request : Request) (net : Option Response)
    (now : Int) (cs : CacheStorage) :
    (∀ nr, net = some nr → nr.ok = true →
      (networkFirst request net now cs).1 = nr ∧
      ((((networkFirst request net now cs).2.getCache DYNAMIC_CACHE).getD
        []).matchKey request.url = some nr)) ∧
    (∀ nr, net = some nr → nr.ok = false →
      networkFirst request net now cs = (nr, cs)) ∧
    (∀ r, net = none → cs.matchAll request.url = some r →
      networkFirst request net now cs = (r, cs)) ∧
    (∀ fb, net = none → cs.matchAll request.url = none →
      request.mode = "navigate" → cs.matchAll "./index.html" = some fb →
      networkFirst request net now cs = (fb, cs)) ∧
    (net = none → cs.matchAll request.url = none →
      (request.mode ≠ "navigate" ∨ cs.matchAll "./index.html" = none) →
      networkFirst request net now cs =
        (errorResponse "Offline - No network connection" now, cs)) := by
  refine ⟨?_, ?_, ?_, ?_, ?_⟩
  · intro nr hnet hok
    subst hnet
    constructor
    · simp [networkFirst, hok]
    · simp only [networkFirst, hok, if_true]
      rw [getCache_putIn_self]
      simp [matchKey_putEntry_self]
  · intro nr hnet hok
    subst hnet
    simp [networkFirst, hok]
  · intro r hnet hr
    subst hnet
    simp [networkFirst, hr]
  · intro fb hnet hmiss hnav hfb
    subst hnet
    simp [networkFirst, hmiss, hnav, hfb]
  · intro hnet hmiss hcase
    subst hnet
    rcases hcase with hnav | hfb
    · simp [networkFirst, hmiss, hnav]
    · by_cases hnav : request.mode = "navigate"
      · simp [networkFirst, hmiss, hnav, hfb]
      · simp [networkFirst, hmiss, hnav]

/-- C5 witness: every branch of the network-first contract at concrete
inputs: a successful fetch, a failed (non-ok) fetch, the cached fallback on
network failure, the fallback page for an offline navigation, and the 503
payload when nothing is available. -/
theorem C5_networkFirst_spec_witness :
    ((networkFirst reqCdn (some freshResponse) 0 []).1 = freshResponse ∧
      ((((networkFirst reqCdn (some freshResponse) 0 []).2.getCache DYNAMIC_CACHE).getD
        []).matchKey reqCdn.url = some freshResponse)) ∧
    networkFirst reqCdn (some notFoundResponse) 0 [] = (notFoundResponse, []) ∧
    networkFirst reqCdn none 0 staticOnlyCs = (sampleResponse, staticOnlyCs) ∧
    networkFirst reqNav none 0 fallbackCs = (sampleResponse, fallbackCs) ∧
    networkFirst reqCdn none 0 [] =
      (errorResponse "Offline - No network connection" 0, []) :=
  ⟨(C5_networkFirst_spec reqCdn (some freshResponse) 0 []).1 freshResponse rfl (by decide),
   (C5_networkFirst_spec reqCdn (some notFoundResponse) 0 []).2.1 notFoundResponse rfl
     (by decide),
   (C5_networkFirst_spec reqCdn none 0 staticOnlyCs).2.2.1 sampleResponse rfl rfl,
   (C5_networkFirst_spec reqNav none 0 fallbackCs).2.2.2.1 sampleResponse rfl rfl rfl rfl,
   (C5_networkFirst_spec reqCdn none 0 []).2.2.2.2 rfl rfl (Or.inl (by decide))⟩

end SW

namespace SW

/-! ### C6 -/

/-- C6 counterexample: the claim says every strategy returns the stored
copy when the network is unavailable and a stored copy exists.  Here a copy
of `reqCdn.url` is stored (in the static cache, where `caches.match` finds
it), yet with the network down `staleWhileRevalidate` — which consults only
the dynamic cache — resolves to no response at all. -/
theorem C6_counterexample :
    staticOnlyCs.matchAll reqCdn.url = some sampleResponse ∧
    (staleWhileRevalidate reqCdn none staticOnlyCs).1 = none := ⟨rfl, rfl⟩

/-- C6 (amended): when the network is unavailable, cache-first and
network-first return the stored copy found anywhere in the cache storage,
while stale-while-revalidate returns the copy stored in the dynamic store
(a copy stored only elsewhere is not returned). -/
theorem C6_offline_returns_cached (request : Request) (now : Int) (cs : CacheStorage) :
    (∀ r, cs.matchAll request.url = some r →
      (cacheFirst request none now cs).1 = r ∧
      (networkFirst request none now cs).1 = r) ∧
    (∀ r, ((cs.getCache DYNAMIC_CACHE).getD []).matchKey request.url = some r →
      (staleWhileRevalidate request none cs).1 = some r) := by
  constructor
  · intro r hr
    constructor
    · simp [cacheFirst, hr]
    · simp [networkFirst, hr]
  · intro r hr
    simp [staleWhileRevalidate, getCache_openCache_getD, hr]

/-- C6 witness: the amended statement at concrete offline inputs, for a
copy stored in the static store (cache-first, network-first) and one stored
in the dynamic store (stale-while-revalidate). -/
theorem C6_offline_returns_cached_witness :
    ((cacheFirst reqCdn none 0 staticOnlyCs).1 = sampleResponse ∧
      (networkFirst reqCdn none 0 staticOnlyCs).1 = sampleResponse) ∧
    (staleWhileRevalidate reqCdn none dynCs).1 = some sampleResponse :=
  ⟨(C6_offline_returns_cached reqCdn 0 staticOnlyCs).1 sampleResponse rfl,
   (C6_offline_returns_cached reqCdn 0 dynCs).2 sampleResponse rfl⟩

/-! ### C7 -/

/-- C7: the activate cleanup keeps exactly the caches named like the
current static and dynamic caches — every other cache is deleted — and the
two current caches themselves are left unchanged. -/
theorem C7_activate_deletes_stale (cs : CacheStorage) :
    activateCleanup cs = cs.filter isCurrent ∧
    (activateCleanup cs).getCache STATIC_CACHE = cs.getCache STATIC_CACHE ∧
    (activateCleanup cs).getCache DYNAMIC_CACHE = cs.getCache DYNAMIC_CACHE := by
  refine ⟨activateCleanup_eq_filter cs, ?_, ?_⟩
  · rw [activateCleanup_eq_filter cs]
    exact getCache_filter_isCurrent cs (by decide)
  · rw [activateCleanup_eq_filter cs]
    exact getCache_filter_isCurrent cs (by decide)

/-! ### C8 -/

/-- C8: the fetch dispatcher lets every non-GET request pass through: no
strategy runs, nothing is responded, and the cache storage is unchanged. -/
theorem C8_non_get_passthrough (selfOrigin : String) (request : Request)
    (net : Option Response) (now : Int) (cs : CacheStorage)
    (h : request.method ≠ "GET") :
    handleFetch selfOrigin request net now cs = (.passthrough, cs) := by
  simp [handleFetch, h]

/-- A POST request to the app origin. -/
def reqPost : Request :=
  { url := "https://example.com/api", method := "POST", mode := "cors",
    origin := "https://example.com", pathname := "/api" }

/-- C8 witness: a POST request passes through untouched even with a live
network and a non-empty cache. -/
theorem C8_non_get_passthrough_witness :
    handleFetch "https://example.com" reqPost (some freshResponse) 0 staticOnlyCs =
      (.passthrough, staticOnlyCs) :=
  C8_non_get_passthrough "https://example.com" reqPost (some freshResponse) 0
    staticOnlyCs (by decide)

end SW

namespace SW

/-! ### C9 -/

theorem cacheFirst_snd (request : Request) (net : Option Response) (now : Int)
    (cs : CacheStorage) :
    (cacheFirst request net now cs).2 = cs ∨
    ∃ nr, (cacheFirst request net now cs).2 = cs.putIn STATIC_CACHE request.url nr := by
  cases hm : cs.matchAll request.url with
  | some r => exact Or.inl (by simp [cacheFirst, hm])
  | none =>
    cases net with
    | some nr =>
      by_cases hok : nr.ok
      · exact Or.inr ⟨nr, by simp [cacheFirst, hm, hok]⟩
      · exact Or.inl (by simp [cacheFirst, hm, hok])
    | none =>
      by_cases hnav : request.mode = "navigate"
      · cases hfb : cs.matchAll "./index.html" with
        | some fb => exact Or.inl (by simp [cacheFirst, hm, hnav, hfb])
        | none => exact Or.inl (by simp [cacheFirst, hm, hnav, hfb])
      · exact Or.inl (by simp [cacheFirst, hm, hnav])

theorem networkFirst_snd (request : Request) (net : Option Response) (now : Int)
    (cs : CacheStorage) :
    (networkFirst request net now cs).2 = cs ∨
    ∃ nr, (networkFirst request net now cs).2 = cs.putIn DYNAMIC_CACHE request.url nr := by
  cases net with
  | some nr =>
    by_cases hok : nr.ok
    · exact Or.inr ⟨nr, by simp [networkFirst, hok]⟩
    · exact Or.inl (by simp [networkFirst, hok])
  | none =>
    cases hm : cs.matchAll request.url with
    | some r => exact Or.inl (by simp [networkFirst, hm])
    | none =>
      by_cases hnav : request.mode = "navigate"
      · cases hfb : cs.matchAll "./index.html" with
        | some fb => exact Or.inl (by simp [networkFirst, hm, hnav, hfb])
        | none => exact Or.inl (by simp [networkFirst, hm, hnav, hfb])
      · exact Or.inl (by simp [networkFirst, hm, hnav])

/-- C9: writes are partitioned by strategy — cache-first touches no cache
but the static one; network-first, stale-while-revalidate and the
attendance-data backup touch no cache but the dynamic one; cleanup touches
no cache but the dynamic one, so in particular the static cache, where
cache-first writes, survives cleanup unchanged. -/
theorem C9_write_partition (request : Request) (net : Option Response) (now : Int)
    (cs : CacheStorage) (data : Body) :
    (∀ name, name ≠ STATIC_CACHE →
      (cacheFirst request net now cs).2.getCache name = cs.getCache name) ∧
    (∀ name, name ≠ DYNAMIC_CACHE →
      (networkFirst request net now cs).2.getCache name = cs.getCache name) ∧
    (∀ name, name ≠ DYNAMIC_CACHE →
      (staleWhileRevalidate request net cs).2.getCache name = cs.getCache name) ∧
    (∀ name, name ≠ DYNAMIC_CACHE →
      (cacheAttendanceData data cs).getCache name = cs.getCache name) ∧
    (∀ name, name ≠ DYNAMIC_CACHE →
      (performCleanup now cs).getCache name = cs.getCache name) ∧
    (performCleanup now cs).getCache STATIC_CACHE = cs.getCache STATIC_CACHE := by
  refine ⟨?_, ?_, ?_, ?_, ?_, ?_⟩
  · intro name hname
    rcases cacheFirst_snd request net now cs with h | ⟨nr, h⟩
    · rw [h]
    · rw [h, getCache_putIn_ne _ _ _ hname]
  · intro name hname
    rcases networkFirst_snd request net now cs with h | ⟨nr, h⟩
    · rw [h]
    · rw [h, getCache_putIn_ne _ _ _ hname]
  · intro name hname
    cases net with
    | some nr =>
      by_cases hok : nr.ok
      · simp [swr_snd, hok, getCache_putIn_ne _ _ _ hname,
          getCache_openCache_ne _ hname]
      · simp [swr_snd, hok, getCache_openCache_ne _ hname]
    | none => simp [swr_snd, getCache_openCache_ne _ hname]
  · intro name hname
    unfold cacheAttendanceData
    rw [getCache_putIn_ne _ _ _ hname]
  · intro name hname
    exact performCleanup_getCache_ne now cs hname
  · exact performCleanup_getCache_ne now cs (by decide)

/-- C9 witness: each frame condition at a concrete input, for a cache name
that is neither the static nor the dynamic one, on a storage that holds a
dynamic cache. -/
theorem C9_write_partition_witness :
    (cacheFirst reqCdn (some freshResponse) 0 dynCs).2.getCache "junk" =
      dynCs.getCache "junk" ∧
    (networkFirst reqCdn (some freshResponse) 0 dynCs).2.getCache "junk" =
      dynCs.getCache "junk" ∧
    (staleWhileRevalidate reqCdn (some freshResponse) dynCs).2.getCache "junk" =
      dynCs.getCache "junk" ∧
    (cacheAttendanceData (.raw "backup") dynCs).getCache "junk" =
      dynCs.getCache "junk" ∧
    (performCleanup 0 dynCs).getCache "junk" = dynCs.getCache "junk" ∧
    (performCleanup 0 dynCs).getCache STATIC_CACHE = dynCs.getCache STATIC_CACHE :=
  ⟨(C9_write_partition reqCdn (some freshResponse) 0 dynCs (.raw "backup")).1
      "junk" (by decide),
   (C9_write_partition reqCdn (some freshResponse) 0 dynCs (.raw "backup")).2.1
      "junk" (by decide),
   (C9_write_partition reqCdn (some freshResponse) 0 dynCs (.raw "backup")).2.2.1
      "junk" (by decide),
   (C9_write_partition reqCdn (some freshResponse) 0 dynCs (.raw "backup")).2.2.2.1
      "junk" (by decide),
   (C9_write_partition reqCdn (some freshResponse) 0 dynCs (.raw "backup")).2.2.2.2.1
      "junk" (by decide),
   (C9_write_partition reqCdn (some freshResponse) 0 dynCs (.raw "backup")).2.2.2.2.2⟩

/-! ### C10 -/

/-- C10: cleanup never deletes a dynamic-store entry whose stored response
carries no date header, however old the entry may be. -/
theorem C10_cleanup_keeps_dateless (now : Int) (cs : CacheStorage)
    (url : String) (r : Response)
    (hnodup : ((List.map Prod.fst ((cs.getCache DYNAMIC_CACHE).getD []))).Nodup)
    (hmem : (url, r) ∈ (cs.getCache DYNAMIC_CACHE).getD [])
    (hdate : r.date = none) :
    (url, r) ∈ ((performCleanup now cs).getCache DYNAMIC_CACHE).getD [] := by
  rw [performCleanup_getCache_dynamic now cs hnodup]
  simp only [Option.getD_some]
  refine List.mem_filter.mpr ⟨hmem, ?_⟩
  simp [shouldDelete, hdate]

/-- A response without a date header. -/
def datelessResponse : Response :=
  { status := 200, statusText := "OK", date := none, body := .raw "d" }

/-- C10 witness: a dateless entry survives a cleanup run at an arbitrarily
late instant. -/
theorem C10_cleanup_keeps_dateless_witness :
    ("nodate", datelessResponse) ∈
      ((performCleanup 999999999999999
        [(DYNAMIC_CACHE, [("nodate", datelessResponse)])]).getCache
          DYNAMIC_CACHE).getD [] :=
  C10_cleanup_keeps_dateless 999999999999999
    [(DYNAMIC_CACHE, [("nodate", datelessResponse)])] "nodate" datelessResponse
    (by decide) (by decide) rfl

end SW
